import Mathlib

/-!
Verification of the spaceship-mcp DNS reconciliation engine and resilient
client against its natural-language specification.

The definitions below are a shallow embedding of the TypeScript source of
the `spaceship-mcp-check` server (normalization, fingerprinting, alignment
checking, cutover planning, pagination aggregation).  String operations
model the JavaScript semantics on ASCII data: `trim` removes leading and
trailing whitespace, `toLowerCase`/`toUpperCase` map ASCII letters, and
`replace(/\.$/, "")` removes one trailing dot.

The response cache, the throttling retry loop and the malformed-response
handling live in `spaceship-client.ts` / `cache.ts`, which are not part of
the sources available here; those components are modelled from the spec
(see the doc comments of `Cache`, `retryLoop` and `parseResponse`).
-/

/-! ## JavaScript string primitives -/

/-- ASCII case folding of JavaScript `toLowerCase` (one character). -/
def jsCharLower (c : Char) : Char :=
  if 65 ≤ c.toNat ∧ c.toNat ≤ 90 then Char.ofNat (c.toNat + 32) else c

/-- ASCII case folding of JavaScript `toUpperCase` (one character). -/
def jsCharUpper (c : Char) : Char :=
  if 97 ≤ c.toNat ∧ c.toNat ≤ 122 then Char.ofNat (c.toNat - 32) else c

/-- JavaScript `s.toLowerCase()` on ASCII data. -/
def jsToLower (s : String) : String :=
  ⟨s.data.map jsCharLower⟩

/-- JavaScript `s.toUpperCase()` on ASCII data. -/
def jsToUpper (s : String) : String :=
  ⟨s.data.map jsCharUpper⟩

/-- The code points ECMAScript `String.prototype.trim` strips: the
WhiteSpace production (TAB, VT, FF, SP, NBSP, ZWNBSP and the Unicode
space-separator category) together with the LineTerminator production
(LF, CR, LS, PS). -/
def jsWsNat (n : Nat) : Prop :=
  n = 9 ∨ n = 10 ∨ n = 11 ∨ n = 12 ∨ n = 13 ∨ n = 32 ∨ n = 160 ∨ n = 5760 ∨
    (8192 ≤ n ∧ n ≤ 8202) ∨ n = 8232 ∨ n = 8233 ∨ n = 8239 ∨ n = 8287 ∨
    n = 12288 ∨ n = 65279

instance (n : Nat) : Decidable (jsWsNat n) := by
  unfold jsWsNat
  infer_instance

/-- Whether JavaScript `trim()` treats the character as whitespace. -/
def jsWhitespace (c : Char) : Bool :=
  decide (jsWsNat c.toNat)

/-- Drop leading whitespace of a character list. -/
def leftTrimL (l : List Char) : List Char :=
  l.dropWhile jsWhitespace

/-- Drop trailing whitespace of a character list. -/
def rightTrimL (l : List Char) : List Char :=
  (l.reverse.dropWhile jsWhitespace).reverse

/-- JavaScript `s.trim()`: drop whitespace at both ends. -/
def jsTrim (s : String) : String :=
  ⟨rightTrimL (leftTrimL s.data)⟩

/-- Remove one final dot of a character list, if present. -/
def dropLastDot (l : List Char) : List Char :=
  if l.getLast? = some '.' then l.dropLast else l

/-- JavaScript `s.replace(/\.$/, "")`: remove one trailing dot. -/
def stripOneTrailingDot (s : String) : String :=
  ⟨dropLastDot s.data⟩

/-! ## Record model (from `dynamic-tools.test.ts`, inline check server)

`DnsRecord` embeds the source's record type: `type` and `name` are always
present, every kind-specific field is optional.  Fields of the source's
open index signature that no core function reads are omitted. -/

structure DnsRecord where
  type : String
  name : String
  ttl : Option Nat := none
  address : Option String := none
  cname : Option String := none
  exchange : Option String := none
  preference : Option Int := none
  value : Option String := none
  service : Option String := none
  protocol : Option String := none
  priority : Option Nat := none
  weight : Option Nat := none
  port : Option Nat := none
  target : Option String := none
deriving DecidableEq, Repr

/-- `normalizeDomain`: trim, strip one trailing ".", lowercase. -/
def normalizeDomain (input : String) : String :=
  jsToLower (stripOneTrailingDot (jsTrim input))

/-- `normalizeName`: trim, strip one trailing ".", lowercase. -/
def normalizeName (input : String) : String :=
  jsToLower (stripOneTrailingDot (jsTrim input))

/-- `normalizeHost`: trim, strip one trailing ".", lowercase. -/
def normalizeHost (input : String) : String :=
  jsToLower (stripOneTrailingDot (jsTrim input))

/-- `String(record.priority ?? "")` and friends for numeric fields. -/
def optNatStr (o : Option Nat) : String :=
  (o.map toString).getD ""

/-- `recordComparableValue`: the type-specific comparison value. -/
def recordComparableValue (r : DnsRecord) : String :=
  let t := jsToUpper r.type
  if t = "A" then jsTrim (r.address.getD "")
  else if t = "AAAA" then jsTrim (r.address.getD "")
  else if t = "CNAME" then normalizeHost (r.cname.getD "")
  else if t = "MX" then
    toString (r.preference.getD (-1)) ++ ":" ++ normalizeHost (r.exchange.getD "")
  else if t = "TXT" then r.value.getD ""
  else if t = "SRV" then
    (r.service.getD "") ++ ":" ++ (r.protocol.getD "") ++ ":" ++
      optNatStr r.priority ++ ":" ++ optNatStr r.weight ++ ":" ++
      optNatStr r.port ++ ":" ++ normalizeHost (r.target.getD "")
  else ""

/-- `String(record.ttl ?? "")` for the fingerprint's TTL component. -/
def ttlComponent (includeTtl : Bool) (ttl : Option Nat) : String :=
  if includeTtl then optNatStr ttl else ""

/-- `recordFingerprint`: `TYPE|name|value|ttl` with normalized parts. -/
def recordFingerprint (r : DnsRecord) (includeTtl : Bool) : String :=
  jsToUpper r.type ++ "|" ++ normalizeName r.name ++ "|" ++
    recordComparableValue r ++ "|" ++ ttlComponent includeTtl r.ttl

/-! ## Expected records (the zod `ExpectedRecordSchema` discriminated union) -/

inductive ExpectedRecord where
  | a (name address : String) (ttl : Option Nat)
  | aaaa (name address : String) (ttl : Option Nat)
  | cname (name cnameHost : String) (ttl : Option Nat)
  | mx (name exchange : String) (pref : Int) (ttl : Option Nat)
  | txt (name value : String) (ttl : Option Nat)
  | srv (name service protocol : String) (priority weight port : Nat)
      (target : String) (ttl : Option Nat)
deriving DecidableEq, Repr

/-- `expectedToRecord`: build the DNS record with only the kind's fields. -/
def expectedToRecord : ExpectedRecord → DnsRecord
  | .a name address ttl => { type := "A", name, address := some address, ttl }
  | .aaaa name address ttl => { type := "AAAA", name, address := some address, ttl }
  | .cname name host ttl => { type := "CNAME", name, cname := some host, ttl }
  | .mx name exchange pref ttl =>
      { type := "MX", name, exchange := some exchange, preference := some pref, ttl }
  | .txt name value ttl => { type := "TXT", name, value := some value, ttl }
  | .srv name service protocol priority weight port target ttl =>
      { type := "SRV", name, service := some service, protocol := some protocol,
        priority := some priority, weight := some weight, port := some port,
        target := some target, ttl }

/-- The `WebRecordTypeSchema` zod enum of filterable record types. -/
inductive WebRecordType where
  | A | AAAA | CNAME | MX | TXT | SRV
deriving DecidableEq, Repr

/-- The wire string of a `WebRecordType` enum member. -/
def WebRecordType.str : WebRecordType → String
  | .A => "A"
  | .AAAA => "AAAA"
  | .CNAME => "CNAME"
  | .MX => "MX"
  | .TXT => "TXT"
  | .SRV => "SRV"

/-- The enum member an expected record's discriminant corresponds to. -/
def ExpectedRecord.webType : ExpectedRecord → WebRecordType
  | .a .. => .A
  | .aaaa .. => .AAAA
  | .cname .. => .CNAME
  | .mx .. => .MX
  | .txt .. => .TXT
  | .srv .. => .SRV

/-! ## Alignment check (`check_dns_alignment` handler, pure part) -/

/-- `actual.filter((record) => includeUnexpectedOfTypes.includes(record.type.toUpperCase()))`. -/
def filterByTypes (types : List WebRecordType) (actual : List DnsRecord) : List DnsRecord :=
  actual.filter (fun r => types.any (fun t => t.str == jsToUpper r.type))

structure AlignmentResult where
  missing : List DnsRecord
  unexpected : List DnsRecord
deriving DecidableEq, Repr

/-- The classification loop of the `check_dns_alignment` handler:
group the filtered actual records by fingerprint, walk the expected
records collecting `missing` and the matched fingerprints, then flag the
filtered actual records whose fingerprint was never matched. -/
def checkAlignment (expected : List ExpectedRecord) (actual : List DnsRecord)
    (includeTtl : Bool) (types : List WebRecordType) : AlignmentResult :=
  let actualFiltered := filterByTypes types actual
  let expectedAsRecords := expected.map expectedToRecord
  let hasMatch := fun (e : DnsRecord) =>
    actualFiltered.any (fun r => recordFingerprint r includeTtl == recordFingerprint e includeTtl)
  let missing := expectedAsRecords.filter (fun e => !(hasMatch e))
  let matchedFingerprints :=
    (expectedAsRecords.filter hasMatch).map (fun e => recordFingerprint e includeTtl)
  let unexpected := actualFiltered.filter
    (fun r => !(matchedFingerprints.contains (recordFingerprint r includeTtl)))
  { missing, unexpected }

/-! ## Cutover planning (`analyze_fly_cutover` handler, pure part) -/

/-- `const webTypes = new Set(["A", "AAAA", "CNAME", "ALIAS"])`. -/
def webTypes : List String :=
  ["A", "AAAA", "CNAME", "ALIAS"]

/-- The current records restricted to web-relevant types at `@` / `www`. -/
def webRecordsOf (actual : List DnsRecord) : List DnsRecord :=
  actual.filter (fun r =>
    webTypes.contains (jsToUpper r.type) && ["@", "www"].contains (normalizeName r.name))

/-- The desired-state list built from the tool's optional Fly targets. -/
def cutoverDesired (flyApexA flyApexAAAA flyWwwCname : Option String) : List DnsRecord :=
  (match flyApexA with
   | some a => [{ type := "A", name := "@", address := some (jsTrim a) }]
   | none => []) ++
  (match flyApexAAAA with
   | some a => [{ type := "AAAA", name := "@", address := some (jsTrim a) }]
   | none => []) ++
  (match flyWwwCname with
   | some c => [{ type := "CNAME", name := "www", cname := some (normalizeHost c) }]
   | none => [])

structure CutoverResult where
  upserts : List DnsRecord
  deletes : List DnsRecord
deriving DecidableEq, Repr

/-- The diff of the `analyze_fly_cutover` handler: desired records whose
TTL-free fingerprint is absent from the current web-relevant record set
become `upserts`; current web-relevant records whose fingerprint is
absent from the desired set become `deletes`. -/
def cutoverPlan (desired actual : List DnsRecord) : CutoverResult :=
  let webRecords := webRecordsOf actual
  let desiredFingerprints := desired.map (recordFingerprint · false)
  let actualFingerprints := webRecords.map (recordFingerprint · false)
  { upserts := desired.filter
      (fun r => !(actualFingerprints.contains (recordFingerprint r false)))
    deletes := webRecords.filter
      (fun r => !(desiredFingerprints.contains (recordFingerprint r false))) }

/-! ## Pagination aggregation (`SpaceshipClient.listAllDnsRecords`) -/

/-- One page of the upstream list endpoint. -/
structure ListResp where
  items : List DnsRecord
  total : Nat
deriving Repr

/-- The `while (skip < total)` loop of `listAllDnsRecords`, with the
upstream modelled as a function of the requested offset and an explicit
fuel bound (the source loop can run forever against a server whose
reported total keeps growing; `none` means the fuel ran out).  `total`
starts as `none`, standing for the source's `POSITIVE_INFINITY`.  The
returned number counts the page fetches performed. -/
def listAllLoop (srv : Nat → ListResp) :
    Nat → Nat → Option Nat → List DnsRecord → Nat → Option (List DnsRecord × Nat)
  | 0, _, _, _, _ => none
  | fuel + 1, skip, total, acc, count =>
    if (total.map fun t => decide (skip < t)).getD true then
      let resp := srv skip
      if resp.items.length = 0 then some (acc ++ resp.items, count + 1)
      else listAllLoop srv fuel (skip + resp.items.length) (some resp.total)
        (acc ++ resp.items) (count + 1)
    else some (acc, count)

/-- `listAllDnsRecords`: aggregate all pages starting at offset 0. -/
def listAllDnsRecords (srv : Nat → ListResp) (fuel : Nat) :
    Option (List DnsRecord × Nat) :=
  listAllLoop srv fuel 0 none [] 0

/-- An upstream holding the record list `L` and answering each request
with at most `P` records starting at the requested offset, reporting the
true total. -/
def honestServer (L : List DnsRecord) (P : Nat) : Nat → ListResp :=
  fun skip => { items := (L.drop skip).take P, total := L.length }

/-! ## Resilient client components modelled from the spec -/

/-- A cached entry: value, store time, time-to-live (seconds). -/
structure CacheEntry where
  value : String
  storedAt : Nat
  ttl : Nat
deriving DecidableEq, Repr

/-- Modelled from the spec: the TTL-based in-memory response cache of
`cache.ts`, whose source is not available here.  An entry is visible to
reads only while `now < storedAt + ttl`; expired entries behave as
absent and are dropped lazily; a globally disabled cache makes every
read a miss. -/
structure Cache where
  enabled : Bool
  entries : List (String × CacheEntry)
deriving DecidableEq, Repr

/-- Modelled from the spec: `set(key, value, ttl)` stores/overwrites an
entry with store time `now` and the given ttl. -/
def Cache.set (c : Cache) (key value : String) (now ttl : Nat) : Cache :=
  { c with entries :=
      (key, { value, storedAt := now, ttl }) :: c.entries.filter (fun e => e.1 ≠ key) }

/-- Modelled from the spec: `get(key)` returns the stored value only if
unexpired; otherwise it behaves as a miss and drops the stale entry. -/
def Cache.get (c : Cache) (key : String) (now : Nat) : Option String × Cache :=
  if !c.enabled then (none, c)
  else
    match c.entries.find? (fun e => e.1 == key) with
    | none => (none, c)
    | some (_, e) =>
      if now < e.storedAt + e.ttl then (some e.value, c)
      else (none, { c with entries := c.entries.filter (fun p => p.1 ≠ key) })

/-- One upstream answer as the retry loop sees it. -/
inductive UpstreamOutcome where
  | ok (body : String)
  | throttled
  | failed (status : Nat)
deriving DecidableEq, Repr

/-- Failure kinds surfaced by the client's request path. -/
inductive RequestFailure where
  | throttledExhausted (attempts : Nat)
  | apiError (status : Nat)
deriving DecidableEq, Repr

/-- Modelled from the spec: the throttling retry loop of
`spaceship-client.ts` (source not available here).  Attempt `i` consults
the upstream; success returns the body with the number of retries
performed; a non-throttling failure propagates immediately; a throttling
answer retries while budget remains and otherwise surfaces the
throttling failure with the attempt count. -/
def retryLoop (upstream : Nat → UpstreamOutcome) :
    Nat → Nat → Except RequestFailure (String × Nat)
  | attempt, 0 =>
    match upstream attempt with
    | .ok body => .ok (body, attempt)
    | .failed status => .error (.apiError status)
    | .throttled => .error (.throttledExhausted (attempt + 1))
  | attempt, budget + 1 =>
    match upstream attempt with
    | .ok body => .ok (body, attempt)
    | .failed status => .error (.apiError status)
    | .throttled => retryLoop upstream (attempt + 1) budget

/-- Modelled from the spec: a request with at most `maxRetries` retries
on throttling. -/
def requestWithRetry (maxRetries : Nat) (upstream : Nat → UpstreamOutcome) :
    Except RequestFailure (String × Nat) :=
  retryLoop upstream 0 maxRetries

/-- Error kinds of the response-handling path. -/
inductive ResponseFailure where
  | httpError (status : Nat)
  | parseFailure
deriving DecidableEq, Repr

/-- Modelled from the spec: the response handling of
`spaceship-client.ts` (source not available here).  A non-2xx status is
a typed upstream failure carrying the status; a 2xx response whose body
failed to parse (`none`) is surfaced as a distinct parse-failure error
rather than being returned as data; a parsed body (possibly empty) is
returned as the payload. -/
def parseResponse (status : Nat) (body : Option String) :
    Except ResponseFailure String :=
  if 200 ≤ status ∧ status < 300 then
    match body with
    | some payload => .ok payload
    | none => .error .parseFailure
  else .error (.httpError status)

/-! ## Character-level lemmas -/

theorem char_toNat_inj {c1 c2 : Char} (h : c1.toNat = c2.toNat) : c1 = c2 :=
  Char.eq_of_val_eq (UInt32.ext h)

theorem char_eq_iff_toNat (c1 c2 : Char) : c1 = c2 ↔ c1.toNat = c2.toNat :=
  ⟨fun h => h ▸ rfl, char_toNat_inj⟩

theorem toNat_ofNat_valid (n : Nat) (h : n < 55296) : (Char.ofNat n).toNat = n := by
  simp [Char.ofNat, Nat.isValidChar, h, Char.ofNatAux, Char.toNat, UInt32.toNat, UInt32.ofNatCore]

theorem jsCharLower_toNat (c : Char) :
    (jsCharLower c).toNat = if 65 ≤ c.toNat ∧ c.toNat ≤ 90 then c.toNat + 32 else c.toNat := by
  unfold jsCharLower
  split
  · next h => exact toNat_ofNat_valid _ (by omega)
  · rfl

theorem jsCharUpper_toNat (c : Char) :
    (jsCharUpper c).toNat = if 97 ≤ c.toNat ∧ c.toNat ≤ 122 then c.toNat - 32 else c.toNat := by
  unfold jsCharUpper
  split
  · next h => exact toNat_ofNat_valid _ (by omega)
  · rfl

theorem jsCharLower_dot_iff (c : Char) : jsCharLower c = '.' ↔ c = '.' := by
  rw [char_eq_iff_toNat, char_eq_iff_toNat, jsCharLower_toNat]
  have h : ('.' : Char).toNat = 46 := rfl
  rw [h]
  split <;> omega

theorem jsCharLower_ws (c : Char) : jsWhitespace (jsCharLower c) = jsWhitespace c := by
  simp only [jsWhitespace]
  rw [decide_eq_decide, jsCharLower_toNat]
  unfold jsWsNat
  split <;> omega

theorem jsCharUpper_congr (a b : Char) (h : jsCharLower a = jsCharLower b) :
    jsCharUpper a = jsCharUpper b := by
  rw [char_eq_iff_toNat] at h ⊢
  rw [jsCharLower_toNat, jsCharLower_toNat] at h
  rw [jsCharUpper_toNat, jsCharUpper_toNat]
  revert h
  split <;> split <;> (intro h; split <;> split <;> omega)

/-! ## String-level normalization lemmas -/

theorem data_jsToLower (s : String) : (jsToLower s).data = s.data.map jsCharLower := rfl

theorem data_jsToUpper (s : String) : (jsToUpper s).data = s.data.map jsCharUpper := rfl

theorem map_upper_congr :
    ∀ l1 l2 : List Char, l1.map jsCharLower = l2.map jsCharLower →
      l1.map jsCharUpper = l2.map jsCharUpper
  | [], [], _ => rfl
  | [], _ :: _, h => by simp at h
  | _ :: _, [], h => by simp at h
  | c1 :: l1, c2 :: l2, h => by
    simp only [List.map_cons, List.cons.injEq] at h ⊢
    exact ⟨jsCharUpper_congr _ _ h.1, map_upper_congr l1 l2 h.2⟩

theorem jsToUpper_congr {s t : String} (h : jsToLower s = jsToLower t) :
    jsToUpper s = jsToUpper t := by
  apply String.ext
  rw [data_jsToUpper, data_jsToUpper]
  exact map_upper_congr _ _ (congrArg String.data h)

theorem ws_comp_lower : (jsWhitespace ∘ jsCharLower) = jsWhitespace :=
  funext fun c => jsCharLower_ws c

theorem leftTrimL_map_lower (l : List Char) :
    leftTrimL (l.map jsCharLower) = (leftTrimL l).map jsCharLower := by
  unfold leftTrimL
  rw [List.dropWhile_map, ws_comp_lower]

theorem rightTrimL_map_lower (l : List Char) :
    rightTrimL (l.map jsCharLower) = (rightTrimL l).map jsCharLower := by
  unfold rightTrimL
  rw [← List.map_reverse, List.dropWhile_map, ws_comp_lower, List.map_reverse]

theorem getLast?_map_lower (l : List Char) :
    (l.map jsCharLower).getLast? = l.getLast?.map jsCharLower := by
  rw [List.getLast?_eq_head?_reverse, List.getLast?_eq_head?_reverse, ← List.map_reverse]
  cases l.reverse <;> rfl

theorem dropLastDot_map_lower (l : List Char) :
    dropLastDot (l.map jsCharLower) = (dropLastDot l).map jsCharLower := by
  unfold dropLastDot
  rw [getLast?_map_lower]
  rcases h : l.getLast? with _ | c
  · simp [h]
  · by_cases hc : c = '.'
    · subst hc
      have hlc : jsCharLower '.' = '.' := by decide
      simp [h, hlc, List.map_dropLast jsCharLower l]
    · have h1 : ¬ jsCharLower c = '.' := fun hh => hc ((jsCharLower_dot_iff c).mp hh)
      simp [h, hc, h1]

theorem jsTrim_lower (s : String) : jsTrim (jsToLower s) = jsToLower (jsTrim s) := by
  apply String.ext
  show rightTrimL (leftTrimL (s.data.map jsCharLower)) = (rightTrimL (leftTrimL s.data)).map jsCharLower
  rw [leftTrimL_map_lower, rightTrimL_map_lower]

theorem stripDot_lower (s : String) :
    stripOneTrailingDot (jsToLower s) = jsToLower (stripOneTrailingDot s) := by
  apply String.ext
  show dropLastDot (s.data.map jsCharLower) = (dropLastDot s.data).map jsCharLower
  rw [dropLastDot_map_lower]

theorem normalizeHost_factor (s : String) :
    normalizeHost s = stripOneTrailingDot (jsTrim (jsToLower s)) := by
  unfold normalizeHost
  rw [jsTrim_lower, stripDot_lower]

theorem normalizeHost_congr {s t : String} (h : jsToLower s = jsToLower t) :
    normalizeHost s = normalizeHost t := by
  rw [normalizeHost_factor, normalizeHost_factor, h]

theorem leftTrimL_append_dot :
    ∀ l : List Char, leftTrimL (l ++ ['.']) = leftTrimL l ++ ['.']
  | [] => by decide
  | c :: l => by
    show List.dropWhile _ (c :: (l ++ ['.'])) = List.dropWhile _ (c :: l) ++ ['.']
    rw [List.dropWhile_cons, List.dropWhile_cons]
    rcases h : jsWhitespace c with _ | _
    · simp
    · simpa using leftTrimL_append_dot l

theorem rightTrimL_append_dot (l : List Char) : rightTrimL (l ++ ['.']) = l ++ ['.'] := by
  unfold rightTrimL
  rw [List.reverse_append]
  have hdot : jsWhitespace '.' = false := by decide
  simp [List.dropWhile_cons, hdot]

theorem dropLastDot_append_dot (l : List Char) : dropLastDot (l ++ ['.']) = l := by
  unfold dropLastDot
  rw [List.getLast?_concat]
  simp [List.dropLast_concat]

theorem rightTrimL_of_getLast (l : List Char)
    (h : ∀ c, l.getLast? = some c → jsWhitespace c = false) : rightTrimL l = l := by
  unfold rightTrimL
  rcases hr : l.reverse with _ | ⟨c, t⟩
  · simpa using congrArg List.reverse hr
  · have hc : l.getLast? = some c := by
      rw [← List.head?_reverse, hr]
      rfl
    rw [List.dropWhile_cons, h c hc]
    simp only [Bool.false_eq_true, if_false]
    rw [← hr, List.reverse_reverse]

theorem getLast?_leftTrimL {l : List Char} {c : Char}
    (h : (leftTrimL l).getLast? = some c) : l.getLast? = some c := by
  obtain ⟨t, ht⟩ := List.dropWhile_suffix (l := l) jsWhitespace
  have hne : l.dropWhile jsWhitespace ≠ [] := by
    intro hnil
    unfold leftTrimL at h
    rw [hnil] at h
    exact Option.noConfusion h
  rw [← ht, List.getLast?_append_of_ne_nil _ hne]
  exact h

theorem jsTrim_data_of_getLast (u : String)
    (hws : ∀ c, u.data.getLast? = some c → jsWhitespace c = false) :
    (jsTrim u).data = leftTrimL u.data := by
  show rightTrimL (leftTrimL u.data) = leftTrimL u.data
  apply rightTrimL_of_getLast
  intro c hc
  exact hws c (getLast?_leftTrimL hc)

theorem normalizeHost_append_dot (u : String)
    (hws : ∀ c, u.data.getLast? = some c → jsWhitespace c = false)
    (hdot : (jsTrim u).data.getLast? ≠ some '.') :
    normalizeHost (u ++ ".") = normalizeHost u := by
  have hdata : (u ++ ".").data = u.data ++ ['.'] := rfl
  have htrim := jsTrim_data_of_getLast u hws
  unfold normalizeHost
  congr 1
  apply String.ext
  show dropLastDot (rightTrimL (leftTrimL (u ++ ".").data))
      = dropLastDot (rightTrimL (leftTrimL u.data))
  rw [hdata, leftTrimL_append_dot, rightTrimL_append_dot, dropLastDot_append_dot]
  rw [show rightTrimL (leftTrimL u.data) = (jsTrim u).data from rfl, htrim]
  unfold dropLastDot
  rw [htrim] at hdot
  simp [hdot]

/-! ## Case / trailing-dot variant relations -/

/-- Two strings that differ only in ASCII letter casing. -/
def lowerEq (s t : String) : Prop :=
  jsToLower s = jsToLower t

instance (s t : String) : Decidable (lowerEq s t) := by
  unfold lowerEq
  infer_instance

/-- A host value on which appending one trailing dot is invisible to
normalization: it has no trailing whitespace, and its trimmed form does
not already end in a dot. -/
def dotSafe (u : String) : Prop :=
  u.data.getLast?.all (fun c => !jsWhitespace c) = true ∧
    (jsTrim u).data.getLast? ≠ some '.'

instance (u : String) : Decidable (dotSafe u) := by
  unfold dotSafe
  infer_instance

/-- `s` is `u`, possibly with one trailing dot appended to a safe `u`. -/
def dotVariant (s u : String) : Prop :=
  s = u ∨ (s = u ++ "." ∧ dotSafe u)

/-- Two host strings differing only in casing and/or one trailing dot. -/
def hostEquiv (s t : String) : Prop :=
  ∃ u v, lowerEq u v ∧ dotVariant s u ∧ dotVariant t v

/-- `hostEquiv` lifted to the optional host fields of a record. -/
def optHostEquiv : Option String → Option String → Prop
  | none, none => True
  | some s, some t => hostEquiv s t
  | _, _ => False

theorem dotVariant_normalizeHost {s u : String} (h : dotVariant s u) :
    normalizeHost s = normalizeHost u := by
  rcases h with h | ⟨h, hws, hdot⟩
  · rw [h]
  · rw [h]
    apply normalizeHost_append_dot u _ hdot
    intro c hc
    rw [hc] at hws
    simpa using hws

theorem hostEquiv_normalizeHost {s t : String} (h : hostEquiv s t) :
    normalizeHost s = normalizeHost t := by
  obtain ⟨u, v, huv, hsu, htv⟩ := h
  rw [dotVariant_normalizeHost hsu, dotVariant_normalizeHost htv]
  exact normalizeHost_congr huv

theorem normalizeName_eq_normalizeHost (s : String) : normalizeName s = normalizeHost s := rfl

theorem optHostEquiv_normalize {o1 o2 : Option String} (h : optHostEquiv o1 o2) :
    normalizeHost (o1.getD "") = normalizeHost (o2.getD "") := by
  match o1, o2, h with
  | none, none, _ => rfl
  | some s, some t, h => exact hostEquiv_normalizeHost h

/-- Fingerprint congruence: records that differ only in letter casing of
`type` and `name`, and in casing and/or one safe trailing dot of `name`
and of the host-bearing fields (`cname`, `exchange`, `target`), have
identical fingerprints for both TTL modes. -/
theorem recordFingerprint_congr (r1 r2 : DnsRecord) (includeTtl : Bool)
    (htype : lowerEq r1.type r2.type)
    (hname : hostEquiv r1.name r2.name)
    (hcname : optHostEquiv r1.cname r2.cname)
    (hexchange : optHostEquiv r1.exchange r2.exchange)
    (htarget : optHostEquiv r1.target r2.target)
    (httl : r1.ttl = r2.ttl) (haddress : r1.address = r2.address)
    (hpreference : r1.preference = r2.preference) (hvalue : r1.value = r2.value)
    (hservice : r1.service = r2.service) (hprotocol : r1.protocol = r2.protocol)
    (hpriority : r1.priority = r2.priority) (hweight : r1.weight = r2.weight)
    (hport : r1.port = r2.port) :
    recordFingerprint r1 includeTtl = recordFingerprint r2 includeTtl := by
  have hup : jsToUpper r1.type = jsToUpper r2.type := jsToUpper_congr htype
  have hnm : normalizeName r1.name = normalizeName r2.name := by
    rw [normalizeName_eq_normalizeHost, normalizeName_eq_normalizeHost]
    exact hostEquiv_normalizeHost hname
  have hval : recordComparableValue r1 = recordComparableValue r2 := by
    unfold recordComparableValue
    rw [← hup, haddress, hpreference, hvalue, hservice, hprotocol, hpriority, hweight, hport,
      optHostEquiv_normalize hcname, optHostEquiv_normalize hexchange,
      optHostEquiv_normalize htarget]
  unfold recordFingerprint
  rw [hup, hnm, hval, httl]

/-! ## Claim C2: fingerprint casing / trailing-dot insensitivity -/

/-- C2, counterexample: the claim quantifies over every pair of records
that differ only in the presence of one trailing "." on a host field,
yet the two CNAME records with `cname` values `"a."` and `"a.."` (the
second being the first with one more trailing dot) have different
fingerprints, because normalization strips exactly one trailing dot. -/
theorem claim2_counterexample :
    (DnsRecord.cname { type := "CNAME", name := "www", cname := some "a.." }
        = some ((DnsRecord.cname { type := "CNAME", name := "www", cname := some "a." }).getD ""
            ++ ".")) ∧
      recordFingerprint { type := "CNAME", name := "www", cname := some "a." } false
        ≠ recordFingerprint { type := "CNAME", name := "www", cname := some "a.." } false := by
  constructor
  · rfl
  · decide

/-- C2 (amended): fingerprints are insensitive to ASCII casing of
`type`, `name` and the host-bearing fields (`cname`, `exchange`,
`target`), and to one trailing dot on `name` or a host-bearing field
provided the value beneath the dot has no trailing whitespace and does
not itself end in a dot after trimming; in particular the two CNAME
records of the spec example have equal fingerprints. -/
theorem claim2_fingerprint_insensitivity :
    (∀ (r1 r2 : DnsRecord) (includeTtl : Bool),
        lowerEq r1.type r2.type → hostEquiv r1.name r2.name →
        optHostEquiv r1.cname r2.cname → optHostEquiv r1.exchange r2.exchange →
        optHostEquiv r1.target r2.target →
        r1.ttl = r2.ttl → r1.address = r2.address → r1.preference = r2.preference →
        r1.value = r2.value → r1.service = r2.service → r1.protocol = r2.protocol →
        r1.priority = r2.priority → r1.weight = r2.weight → r1.port = r2.port →
        recordFingerprint r1 includeTtl = recordFingerprint r2 includeTtl) ∧
      recordFingerprint
          { type := "CNAME", name := "WWW.Example.com.", cname := some "target.Example.com" }
          false
        = recordFingerprint
            { type := "cname", name := "www.example.com", cname := some "target.example.com." }
            false := by
  refine ⟨?_, by decide⟩
  intro r1 r2 includeTtl h1 h2 h3 h4 h5 h6 h7 h8 h9 h10 h11 h12 h13 h14
  exact recordFingerprint_congr r1 r2 includeTtl h1 h2 h3 h4 h5 h6 h7 h8 h9 h10 h11 h12 h13 h14

/-- C2, witness: the amended insensitivity applied to a concrete pair
differing in casing of every covered field and in one safe trailing dot
on the name and the cname. -/
theorem claim2_witness :
    recordFingerprint { type := "CNAME", name := "WWW.Test.", cname := some "Host.Example" }
        false
      = recordFingerprint { type := "cname", name := "www.test", cname := some "host.example." }
          false :=
  claim2_fingerprint_insensitivity.1
    { type := "CNAME", name := "WWW.Test.", cname := some "Host.Example" }
    { type := "cname", name := "www.test", cname := some "host.example." }
    false (by decide)
    ⟨"WWW.Test", "www.test", by decide, Or.inr ⟨rfl, by decide⟩, Or.inl rfl⟩
    ⟨"Host.Example", "host.example", by decide, Or.inl rfl, Or.inr ⟨rfl, by decide⟩⟩
    trivial trivial rfl rfl rfl rfl rfl rfl rfl rfl rfl


/-! ## Alignment-check characterization lemmas -/

theorem checkAlignment_missing_def (expected : List ExpectedRecord) (actual : List DnsRecord)
    (inc : Bool) (types : List WebRecordType) :
    (checkAlignment expected actual inc types).missing
      = (expected.map expectedToRecord).filter
          (fun e => !((filterByTypes types actual).any
            (fun r => recordFingerprint r inc == recordFingerprint e inc))) := rfl

theorem checkAlignment_unexpected_def (expected : List ExpectedRecord) (actual : List DnsRecord)
    (inc : Bool) (types : List WebRecordType) :
    (checkAlignment expected actual inc types).unexpected
      = (filterByTypes types actual).filter
          (fun r => !((((expected.map expectedToRecord).filter
              (fun e => (filterByTypes types actual).any
                (fun r2 => recordFingerprint r2 inc == recordFingerprint e inc))).map
            (fun e => recordFingerprint e inc)).contains (recordFingerprint r inc))) := rfl

theorem mem_missing_iff (expected : List ExpectedRecord) (actual : List DnsRecord)
    (inc : Bool) (types : List WebRecordType) (e : DnsRecord) :
    e ∈ (checkAlignment expected actual inc types).missing ↔
      e ∈ expected.map expectedToRecord ∧
        ∀ r ∈ filterByTypes types actual,
          recordFingerprint r inc ≠ recordFingerprint e inc := by
  rw [checkAlignment_missing_def, List.mem_filter]
  simp only [Bool.not_eq_true', ← Bool.not_eq_true, List.any_eq_true, beq_iff_eq, not_exists,
    not_and]

theorem mem_unexpected_iff (expected : List ExpectedRecord) (actual : List DnsRecord)
    (inc : Bool) (types : List WebRecordType) (r : DnsRecord) :
    r ∈ (checkAlignment expected actual inc types).unexpected ↔
      r ∈ filterByTypes types actual ∧
        ¬∃ e ∈ expected.map expectedToRecord,
          (∃ r2 ∈ filterByTypes types actual,
            recordFingerprint r2 inc = recordFingerprint e inc) ∧
            recordFingerprint e inc = recordFingerprint r inc := by
  rw [checkAlignment_unexpected_def, List.mem_filter]
  simp only [Bool.not_eq_true', ← Bool.not_eq_true, List.contains_eq_any_beq, List.any_eq_true,
    beq_iff_eq, List.mem_map, List.mem_filter, not_exists, not_and]
  constructor
  · rintro ⟨hr, h⟩
    refine ⟨hr, ?_⟩
    intro x hx hmatch hfp
    exact h (recordFingerprint x inc) ⟨x, ⟨hx, hmatch⟩, rfl⟩ hfp.symm
  · rintro ⟨hr, h⟩
    refine ⟨hr, ?_⟩
    rintro x ⟨a, ⟨ha, hmatch⟩, rfl⟩ hfp
    exact h a ha hmatch hfp.symm

theorem mem_filterByTypes {types : List WebRecordType} {actual : List DnsRecord}
    {r : DnsRecord} (h : r ∈ filterByTypes types actual) :
    r ∈ actual ∧ ∃ t ∈ types, t.str = jsToUpper r.type := by
  have hm := List.mem_filter.mp h
  refine ⟨hm.1, ?_⟩
  have := hm.2
  simp only [List.any_eq_true, beq_iff_eq] at this
  exact this

/-! ## Claim C1: alignment-check classification -/

/-- C1: for every expected-record list and actual record list (the
actual list first filtered to the selected types), an expected record
whose fingerprint matches no filtered actual record appears in
`missing`; a filtered actual record whose fingerprint matches no
expected record appears in `unexpected`; and a record with a cross-side
fingerprint match appears in neither list. -/
theorem claim1_alignment_classification
    (expected : List ExpectedRecord) (actual : List DnsRecord)
    (inc : Bool) (types : List WebRecordType) :
    (∀ e ∈ expected,
        (∀ r ∈ filterByTypes types actual,
          recordFingerprint r inc ≠ recordFingerprint (expectedToRecord e) inc) →
        expectedToRecord e ∈ (checkAlignment expected actual inc types).missing) ∧
    (∀ r ∈ filterByTypes types actual,
        (∀ e ∈ expected,
          recordFingerprint (expectedToRecord e) inc ≠ recordFingerprint r inc) →
        r ∈ (checkAlignment expected actual inc types).unexpected) ∧
    (∀ e ∈ expected,
        (∃ r ∈ filterByTypes types actual,
          recordFingerprint r inc = recordFingerprint (expectedToRecord e) inc) →
        expectedToRecord e ∉ (checkAlignment expected actual inc types).missing) ∧
    (∀ r ∈ filterByTypes types actual,
        (∃ e ∈ expected,
          recordFingerprint (expectedToRecord e) inc = recordFingerprint r inc) →
        r ∉ (checkAlignment expected actual inc types).unexpected) := by
  refine ⟨?_, ?_, ?_, ?_⟩
  · intro e he h
    exact (mem_missing_iff expected actual inc types _).mpr ⟨List.mem_map_of_mem _ he, h⟩
  · intro r hr h
    refine (mem_unexpected_iff expected actual inc types r).mpr ⟨hr, ?_⟩
    rintro ⟨e2, he2, hmatch, hfpe⟩
    obtain ⟨e, he, rfl⟩ := List.mem_map.mp he2
    exact h e he hfpe
  · rintro e he ⟨r, hr, hfp⟩ hmem
    exact ((mem_missing_iff expected actual inc types _).mp hmem).2 r hr hfp
  · rintro r hr ⟨e, he, hfp⟩ hmem
    exact ((mem_unexpected_iff expected actual inc types r).mp hmem).2
      ⟨expectedToRecord e, List.mem_map_of_mem _ he, ⟨r, hr, hfp.symm⟩, hfp⟩

/-- C1, witness: the two spec examples — an expected apex A record
against an empty zone lands in `missing`, and an unmatched actual A
record of a filtered-in type lands in `unexpected`. -/
theorem claim1_witness :
    expectedToRecord (ExpectedRecord.a "@" "1.2.3.4" none)
        ∈ (checkAlignment [ExpectedRecord.a "@" "1.2.3.4" none] [] false
            [.A, .AAAA, .CNAME, .MX, .TXT, .SRV]).missing ∧
      ({ type := "A", name := "@", address := some "1.2.3.4" } : DnsRecord)
        ∈ (checkAlignment [] [{ type := "A", name := "@", address := some "1.2.3.4" }] false
            [.A, .AAAA, .CNAME, .MX, .TXT, .SRV]).unexpected := by
  constructor
  · exact (claim1_alignment_classification _ _ _ _).1 _ (by simp)
      (by intro r hr; simp [filterByTypes] at hr)
  · exact (claim1_alignment_classification _ _ _ _).2.1 _ (by decide)
      (by intro e he; simp at he)

/-! ## Claim C6: duplicate tolerance -/

/-- C6: when the actual list contains records (in particular two or
more duplicates) whose fingerprint equals an expected record's
fingerprint, every such actual record is treated as matched by that
single expected record — none of them appears in `unexpected`, and the
expected record is not reported `missing`. -/
theorem claim6_duplicate_tolerance
    (expected : List ExpectedRecord) (actual : List DnsRecord)
    (inc : Bool) (types : List WebRecordType) (e : ExpectedRecord) (he : e ∈ expected) :
    (∀ r ∈ filterByTypes types actual,
        recordFingerprint r inc = recordFingerprint (expectedToRecord e) inc →
        r ∉ (checkAlignment expected actual inc types).unexpected) ∧
    ((∃ r ∈ filterByTypes types actual,
        recordFingerprint r inc = recordFingerprint (expectedToRecord e) inc) →
      expectedToRecord e ∉ (checkAlignment expected actual inc types).missing) := by
  constructor
  · intro r hr hfp hmem
    exact ((mem_unexpected_iff expected actual inc types r).mp hmem).2
      ⟨expectedToRecord e, List.mem_map_of_mem _ he, ⟨r, hr, hfp⟩, hfp.symm⟩
  · rintro ⟨r, hr, hfp⟩ hmem
    exact ((mem_missing_iff expected actual inc types _).mp hmem).2 r hr hfp

/-- C6, witness: with one expected A record and two duplicate matching
actual A records, a duplicate is not flagged as unexpected. -/
theorem claim6_witness :
    ({ type := "A", name := "@", address := some "1.2.3.4" } : DnsRecord)
      ∉ (checkAlignment [ExpectedRecord.a "@" "1.2.3.4" none]
          [{ type := "A", name := "@", address := some "1.2.3.4" },
           { type := "A", name := "@", address := some "1.2.3.4" }] false
          [.A, .AAAA, .CNAME, .MX, .TXT, .SRV]).unexpected :=
  (claim6_duplicate_tolerance [ExpectedRecord.a "@" "1.2.3.4" none]
      [{ type := "A", name := "@", address := some "1.2.3.4" },
       { type := "A", name := "@", address := some "1.2.3.4" }] false
      [.A, .AAAA, .CNAME, .MX, .TXT, .SRV]
      (ExpectedRecord.a "@" "1.2.3.4" none) (by simp)).1 _ (by decide) (by decide)

/-! ## Fingerprint structure lemmas (for claim C10) -/

theorem bar_split :
    ∀ (l1 : List Char) {l2 t1 t2 : List Char}, ('|' ∉ l1) → ('|' ∉ l2) →
      l1 ++ '|' :: t1 = l2 ++ '|' :: t2 → l1 = l2
  | [], l2, t1, t2, _, h2, heq => by
    cases l2 with
    | nil => rfl
    | cons c l2t =>
      simp only [List.nil_append, List.cons_append, List.cons.injEq] at heq
      refine absurd ?_ h2
      rw [← heq.1]
      exact List.mem_cons_self _ _
  | c :: l1t, l2, t1, t2, h1, h2, heq => by
    cases l2 with
    | nil =>
      simp only [List.cons_append, List.nil_append, List.cons.injEq] at heq
      refine absurd ?_ h1
      rw [heq.1]
      exact List.mem_cons_self _ _
    | cons c2 l2t =>
      simp only [List.cons_append, List.cons.injEq] at heq
      have h1t : ('|' ∉ l1t) := fun hm => h1 (List.mem_cons_of_mem c hm)
      have h2t : ('|' ∉ l2t) := fun hm => h2 (List.mem_cons_of_mem c2 hm)
      rw [heq.1, bar_split l1t h1t h2t heq.2]

theorem fingerprint_data (r : DnsRecord) (inc : Bool) :
    (recordFingerprint r inc).data
      = (jsToUpper r.type).data ++ '|' :: ((normalizeName r.name).data
          ++ '|' :: ((recordComparableValue r).data
            ++ '|' :: (ttlComponent inc r.ttl).data)) := by
  show (jsToUpper r.type ++ "|" ++ normalizeName r.name ++ "|" ++ recordComparableValue r
      ++ "|" ++ ttlComponent inc r.ttl).data = _
  simp [String.data_append, List.append_assoc]

theorem webTypeStr_inj : ∀ t1 t2 : WebRecordType, t1.str = t2.str → t1 = t2 := by
  intro t1 t2 h
  cases t1 <;> cases t2 <;> first
  | rfl
  | exact absurd h (by decide)

theorem webTypeStr_noBar : ∀ t : WebRecordType, ('|' ∈ t.str.data) → False := by
  intro t
  cases t <;> decide

theorem expected_type_upper : ∀ e : ExpectedRecord,
    jsToUpper (expectedToRecord e).type = e.webType.str := by
  intro e
  cases e <;> rfl

/-! ## Claim C10: expected records of filtered-out types -/

/-- C10: an expected record whose type is not in the
`includeUnexpectedOfTypes` filter is always classified as `missing`,
even when the actual list contains a record with an identical
fingerprint, because actual records are filtered by type before any
fingerprint matching. -/
theorem claim10_unfiltered_expected_missing
    (expected : List ExpectedRecord) (actual : List DnsRecord)
    (inc : Bool) (types : List WebRecordType) (e : ExpectedRecord)
    (he : e ∈ expected) (hnot : e.webType ∉ types) :
    expectedToRecord e ∈ (checkAlignment expected actual inc types).missing := by
  refine (mem_missing_iff expected actual inc types _).mpr
    ⟨List.mem_map_of_mem _ he, ?_⟩
  intro r hr hfp
  obtain ⟨-, t, ht, hstr⟩ := mem_filterByTypes hr
  have hdata := congrArg String.data hfp
  rw [fingerprint_data, fingerprint_data] at hdata
  have hbar1 : ('|' ∈ (jsToUpper r.type).data) → False := by
    rw [← hstr]
    exact webTypeStr_noBar t
  have hbar2 : ('|' ∈ (jsToUpper (expectedToRecord e).type).data) → False := by
    rw [expected_type_upper]
    exact webTypeStr_noBar e.webType
  have hl : (jsToUpper r.type).data = (jsToUpper (expectedToRecord e).type).data :=
    bar_split _ hbar1 hbar2 hdata
  have hts : t.str = e.webType.str := by
    rw [hstr, ← expected_type_upper e]
    exact String.ext hl
  exact hnot (webTypeStr_inj t e.webType hts ▸ ht)

/-- C10, witness: an expected CNAME with an identically-fingerprinted
actual CNAME present is still reported missing when the filter only
admits A records. -/
theorem claim10_witness :
    recordFingerprint
        (expectedToRecord (ExpectedRecord.cname "www" "x.example" none)) false
      = recordFingerprint
          ({ type := "CNAME", name := "www", cname := some "x.example" } : DnsRecord) false ∧
      expectedToRecord (ExpectedRecord.cname "www" "x.example" none)
        ∈ (checkAlignment [ExpectedRecord.cname "www" "x.example" none]
            [{ type := "CNAME", name := "www", cname := some "x.example" }] false
            [.A]).missing :=
  ⟨by decide,
    claim10_unfiltered_expected_missing [ExpectedRecord.cname "www" "x.example" none]
      [{ type := "CNAME", name := "www", cname := some "x.example" }] false [.A]
      (ExpectedRecord.cname "www" "x.example" none) (by simp) (by decide)⟩

/-! ## Claim C4: cutover planning -/

/-- C4: with the current records restricted to web-relevant types at
the `@` and `www` owner names, `upserts` is exactly the desired records
whose TTL-free fingerprint is absent from the restricted current set
and `deletes` is exactly the restricted current records whose TTL-free
fingerprint is absent from the desired set; the spec's concrete example
yields one upsert and two deletes. -/
theorem claim4_cutover_plan (desired actual : List DnsRecord) :
    ((∀ d, d ∈ (cutoverPlan desired actual).upserts ↔
        d ∈ desired ∧ ¬∃ r ∈ webRecordsOf actual,
          recordFingerprint r false = recordFingerprint d false) ∧
      (∀ r, r ∈ (cutoverPlan desired actual).deletes ↔
        r ∈ webRecordsOf actual ∧ ¬∃ d ∈ desired,
          recordFingerprint d false = recordFingerprint r false) ∧
      cutoverPlan (cutoverDesired (some "10.0.0.1") none none)
          [{ type := "CNAME", name := "www", cname := some "old.vercel.app" },
           { type := "A", name := "@", address := some "9.9.9.9" }]
        = { upserts := [{ type := "A", name := "@", address := some "10.0.0.1" }],
            deletes := [{ type := "CNAME", name := "www", cname := some "old.vercel.app" },
                        { type := "A", name := "@", address := some "9.9.9.9" }] }) := by
  refine ⟨?_, ?_, by decide⟩
  · intro d
    show d ∈ desired.filter _ ↔ _
    rw [List.mem_filter]
    simp only [Bool.not_eq_true', ← Bool.not_eq_true, List.contains_eq_any_beq, List.any_eq_true,
      beq_iff_eq, List.mem_map, not_exists, not_and]
    constructor
    · rintro ⟨hd, hno⟩
      refine ⟨hd, ?_⟩
      intro r hr hfp
      exact hno (recordFingerprint r false) ⟨r, hr, rfl⟩ hfp.symm
    · rintro ⟨hd, hno⟩
      refine ⟨hd, ?_⟩
      rintro x ⟨r, hr, rfl⟩ hfp
      exact hno r hr hfp.symm
  · intro r
    show r ∈ (webRecordsOf actual).filter _ ↔ _
    rw [List.mem_filter]
    simp only [Bool.not_eq_true', ← Bool.not_eq_true, List.contains_eq_any_beq, List.any_eq_true,
      beq_iff_eq, List.mem_map, not_exists, not_and]
    constructor
    · rintro ⟨hr, hno⟩
      refine ⟨hr, ?_⟩
      intro d hd hfp
      exact hno (recordFingerprint d false) ⟨d, hd, rfl⟩ hfp.symm
    · rintro ⟨hr, hno⟩
      refine ⟨hr, ?_⟩
      rintro x ⟨d, hd, rfl⟩ hfp
      exact hno d hd hfp.symm

/-! ## Claim C3: pagination aggregation -/

theorem listAllLoop_exit (srv : Nat → ListResp) (fuel skip tot : Nat)
    (acc : List DnsRecord) (count : Nat) (h : tot ≤ skip) :
    listAllLoop srv (fuel + 1) skip (some tot) acc count = some (acc, count) := by
  unfold listAllLoop
  simp [Nat.not_lt.mpr h]

theorem listAllLoop_zero_page (srv : Nat → ListResp) (fuel skip tot : Nat)
    (acc : List DnsRecord) (count : Nat) (hlt : skip < tot)
    (hz : (srv skip).items = []) :
    listAllLoop srv (fuel + 1) skip (some tot) acc count = some (acc, count + 1) := by
  unfold listAllLoop
  simp [hlt, hz]

theorem drop_add (L : List DnsRecord) (n m : Nat) :
    L.drop (n + m) = (L.drop n).drop m := by
  rw [List.drop_drop, Nat.add_comm]

theorem listAllLoop_honest (L : List DnsRecord) (P : Nat) (hP : 0 < P) :
    ∀ (fuel skip : Nat) (tot : Option Nat) (acc : List DnsRecord) (count : Nat),
      skip < L.length →
      ((tot.map fun t => decide (skip < t)).getD true) = true →
      (L.length - skip + P - 1) / P + 1 ≤ fuel →
      listAllLoop (honestServer L P) fuel skip tot acc count
        = some (acc ++ L.drop skip, count + (L.length - skip + P - 1) / P) := by
  intro fuel
  induction fuel with
  | zero =>
    intro skip tot acc count hskip htot hfuel
    exact absurd hfuel (Nat.not_succ_le_zero _)
  | succ fuel ih =>
    intro skip tot acc count hskip htot hfuel
    have hitems : (honestServer L P skip).items = (L.drop skip).take P := rfl
    have hlen : (honestServer L P skip).items.length = min P (L.length - skip) := by
      rw [hitems, List.length_take, List.length_drop]
    have hpos : 0 < (honestServer L P skip).items.length := by
      rw [hlen]
      omega
    unfold listAllLoop
    rw [htot]
    simp only [if_true]
    rw [if_neg (by omega)]
    have htotal : (honestServer L P skip).total = L.length := rfl
    rw [htotal, hlen, hitems]
    by_cases hlast : L.length ≤ skip + P
    · have hmin : min P (L.length - skip) = L.length - skip := by omega
      have hdiv : (L.length - skip + P - 1) / P = 1 := by
        have h1 : L.length - skip + P - 1 = (L.length - skip - 1) + P := by omega
        rw [h1, Nat.add_div_right _ hP, Nat.div_eq_of_lt (by omega)]
      obtain ⟨fuel2, rfl⟩ : ∃ f2, fuel = f2 + 1 := ⟨fuel - 1, by omega⟩
      rw [hmin]
      have hskip2 : skip + (L.length - skip) = L.length := by omega
      rw [hskip2, listAllLoop_exit _ _ _ _ _ _ (le_refl _)]
      rw [List.take_of_length_le (by rw [List.length_drop]; omega), hdiv]
    · have hmin : min P (L.length - skip) = P := by omega
      rw [hmin]
      have hsk2 : skip + P < L.length := by omega
      have heq : L.length - skip + P - 1 = (L.length - (skip + P) + P - 1) + P := by omega
      have hdiv2 : (L.length - skip + P - 1) / P
          = (L.length - (skip + P) + P - 1) / P + 1 := by
        rw [heq, Nat.add_div_right _ hP]
      rw [ih (skip + P) (some L.length) (acc ++ (L.drop skip).take P) (count + 1)
        hsk2 (by simp [hsk2]) (by omega)]
      congr 1
      refine Prod.ext ?_ ?_
      · show acc ++ (L.drop skip).take P ++ L.drop (skip + P) = acc ++ L.drop skip
        rw [List.append_assoc, drop_add, List.take_append_drop]
      · show count + 1 + (L.length - (skip + P) + P - 1) / P
            = count + (L.length - skip + P - 1) / P
        omega

/-- C3, counterexample: the claim demands exactly `ceil(N/P)` page
fetches for every upstream list of `N` records, but for the empty list
(`N = 0`) the aggregation loop still issues one probe fetch (it cannot
learn the total without fetching), while `ceil(0/P) = 0`. -/
theorem claim3_counterexample :
    listAllDnsRecords (honestServer [] 500) 2 = some ([], 1) ∧
      (List.length ([] : List DnsRecord) + 500 - 1) / 500 ≠ 1 := by
  constructor
  · rfl
  · decide

/-- C3 (amended): for every non-empty upstream list of `N` records
served honestly with page size `P` (and enough loop fuel), the
aggregation performs exactly `ceil(N/P)` page fetches and returns the
`N` items in their original order; for `N = 0` it performs exactly one
fetch returning no items; and whenever a page returns zero items the
loop halts immediately even when the reported total implies more items
remain. -/
theorem claim3_pagination :
    ((∀ (L : List DnsRecord) (P fuel : Nat), 0 < P → L ≠ [] →
        (L.length + P - 1) / P + 1 ≤ fuel →
        listAllDnsRecords (honestServer L P) fuel
          = some (L, (L.length + P - 1) / P)) ∧
      (∀ (P fuel : Nat), 0 < P → 1 ≤ fuel →
        listAllDnsRecords (honestServer [] P) fuel = some ([], 1)) ∧
      (∀ (srv : Nat → ListResp) (skip tot fuel : Nat) (acc : List DnsRecord) (count : Nat),
        skip < tot → (srv skip).items = [] →
        listAllLoop srv (fuel + 1) skip (some tot) acc count = some (acc, count + 1))) := by
  refine ⟨?_, ?_, ?_⟩
  · intro L P fuel hP hL hfuel
    have hlen : 0 < L.length := List.length_pos.mpr hL
    unfold listAllDnsRecords
    rw [listAllLoop_honest L P hP fuel 0 none [] 0 hlen rfl (by simpa using hfuel)]
    simp
  · intro P fuel hP hfuel
    obtain ⟨f, rfl⟩ : ∃ f, fuel = f + 1 := ⟨fuel - 1, by omega⟩
    unfold listAllDnsRecords listAllLoop
    simp [honestServer]
  · intro srv skip tot fuel acc count hlt hz
    exact listAllLoop_zero_page srv fuel skip tot acc count hlt hz

/-- C3, witness: three records at page size two take two fetches; the
empty list takes one probe fetch; a zero-item page halts the loop even
though the reported total says five items remain. -/
theorem claim3_witness :
    listAllDnsRecords (honestServer
        [{ type := "A", name := "a", address := some "1.1.1.1" },
         { type := "A", name := "b", address := some "2.2.2.2" },
         { type := "A", name := "c", address := some "3.3.3.3" }] 2) 4
      = some ([{ type := "A", name := "a", address := some "1.1.1.1" },
               { type := "A", name := "b", address := some "2.2.2.2" },
               { type := "A", name := "c", address := some "3.3.3.3" }], 2) ∧
    listAllDnsRecords (honestServer [] 500) 7 = some ([], 1) ∧
    listAllLoop (fun _ => { items := [], total := 5 }) 1 0 (some 5) [] 0 = some ([], 1) := by
  refine ⟨?_, ?_, ?_⟩
  · exact claim3_pagination.1 _ 2 4 (by decide) (by decide) (by decide)
  · exact claim3_pagination.2.1 500 7 (by decide) (by decide)
  · exact claim3_pagination.2.2 _ 0 5 0 [] 0 (by decide) rfl

/-! ## Claim C5: throttling retry with backoff -/

theorem retryLoop_ok (upstream : Nat → UpstreamOutcome) (body : String) :
    ∀ (k attempt budget : Nat),
      (∀ i, i < k → upstream (attempt + i) = .throttled) →
      upstream (attempt + k) = .ok body → k ≤ budget →
      retryLoop upstream attempt budget = .ok (body, attempt + k) := by
  intro k
  induction k with
  | zero =>
    intro attempt budget hth hok hle
    rw [show attempt + 0 = attempt from rfl] at hok
    cases budget with
    | zero =>
      unfold retryLoop
      rw [hok]
      rfl
    | succ b =>
      unfold retryLoop
      rw [hok]
      rfl
  | succ k ih =>
    intro attempt budget hth hok hle
    obtain ⟨b, rfl⟩ : ∃ b, budget = b + 1 := ⟨budget - 1, by omega⟩
    unfold retryLoop
    rw [show upstream attempt = .throttled from by
      have := hth 0 (by omega)
      simpa using this]
    have ih2 := ih (attempt + 1) b
      (fun i hi => by
        have := hth (i + 1) (by omega)
        rw [show attempt + (i + 1) = attempt + 1 + i from by omega] at this
        exact this)
      (by rw [show attempt + 1 + k = attempt + (k + 1) from by omega]; exact hok)
      (by omega)
    rw [ih2, show attempt + 1 + k = attempt + (k + 1) from by omega]

theorem retryLoop_exhausted (upstream : Nat → UpstreamOutcome) :
    ∀ (budget attempt : Nat),
      (∀ i, i ≤ budget → upstream (attempt + i) = .throttled) →
      retryLoop upstream attempt budget = .error (.throttledExhausted (attempt + budget + 1)) := by
  intro budget
  induction budget with
  | zero =>
    intro attempt hth
    unfold retryLoop
    rw [show upstream attempt = .throttled from by simpa using hth 0 (by omega)]
  | succ b ih =>
    intro attempt hth
    unfold retryLoop
    rw [show upstream attempt = .throttled from by simpa using hth 0 (by omega)]
    have ih2 := ih (attempt + 1) (fun i hi => by
      have := hth (i + 1) (by omega)
      rw [show attempt + (i + 1) = attempt + 1 + i from by omega] at this
      exact this)
    rw [ih2, show attempt + 1 + b + 1 = attempt + (b + 1) + 1 from by omega]

theorem retryLoop_failed (upstream : Nat → UpstreamOutcome) (status : Nat) :
    ∀ (k attempt budget : Nat),
      (∀ i, i < k → upstream (attempt + i) = .throttled) →
      upstream (attempt + k) = .failed status → k ≤ budget →
      retryLoop upstream attempt budget = .error (.apiError status) := by
  intro k
  induction k with
  | zero =>
    intro attempt budget hth hfail hle
    rw [show attempt + 0 = attempt from rfl] at hfail
    cases budget with
    | zero =>
      unfold retryLoop
      rw [hfail]
    | succ b =>
      unfold retryLoop
      rw [hfail]
  | succ k ih =>
    intro attempt budget hth hfail hle
    obtain ⟨b, rfl⟩ : ∃ b, budget = b + 1 := ⟨budget - 1, by omega⟩
    unfold retryLoop
    rw [show upstream attempt = .throttled from by simpa using hth 0 (by omega)]
    exact ih (attempt + 1) b
      (fun i hi => by
        have := hth (i + 1) (by omega)
        rw [show attempt + (i + 1) = attempt + 1 + i from by omega] at this
        exact this)
      (by rw [show attempt + 1 + k = attempt + (k + 1) from by omega]; exact hfail)
      (by omega)

/-- C5 (modelled from the spec, `spaceship-client.ts` being absent):
a request that sees `k ≤ maxRetries` consecutive throttling answers
followed by a success succeeds after exactly `k` retries; one that sees
throttling on every attempt up to the budget fails with the throttling
error annotated with the attempt count; and a non-throttling failure
propagates immediately without being retried. -/
theorem claim5_retry_backoff :
    ((∀ (maxRetries k : Nat) (upstream : Nat → UpstreamOutcome) (body : String),
        (∀ i, i < k → upstream i = .throttled) → upstream k = .ok body →
        k ≤ maxRetries →
        requestWithRetry maxRetries upstream = .ok (body, k)) ∧
      (∀ (maxRetries : Nat) (upstream : Nat → UpstreamOutcome),
        (∀ i, i ≤ maxRetries → upstream i = .throttled) →
        requestWithRetry maxRetries upstream
          = .error (.throttledExhausted (maxRetries + 1))) ∧
      (∀ (maxRetries k : Nat) (upstream : Nat → UpstreamOutcome) (status : Nat),
        (∀ i, i < k → upstream i = .throttled) → upstream k = .failed status →
        k ≤ maxRetries →
        requestWithRetry maxRetries upstream = .error (.apiError status))) := by
  refine ⟨?_, ?_, ?_⟩
  · intro maxRetries k upstream body hth hok hle
    have := retryLoop_ok upstream body k 0 maxRetries
      (fun i hi => by simpa using hth i hi) (by simpa using hok) hle
    simpa [requestWithRetry] using this
  · intro maxRetries upstream hth
    have := retryLoop_exhausted upstream maxRetries 0
      (fun i hi => by simpa using hth i hi)
    simpa [requestWithRetry] using this
  · intro maxRetries k upstream status hth hfail hle
    have := retryLoop_failed upstream status k 0 maxRetries
      (fun i hi => by simpa using hth i hi) (by simpa using hfail) hle
    simpa [requestWithRetry] using this

/-- C5, witness: with `maxRetries = 3`, three throttles then success
succeeds after exactly 3 retries; four throttles exhaust the budget;
a hard failure is surfaced with zero retries. -/
theorem claim5_witness :
    requestWithRetry 3 (fun i => if i < 3 then .throttled else .ok "payload")
        = .ok ("payload", 3) ∧
      requestWithRetry 3 (fun _ => .throttled) = .error (.throttledExhausted 4) ∧
      requestWithRetry 3 (fun _ => .failed 500) = .error (.apiError 500) := by
  refine ⟨?_, ?_, ?_⟩
  · exact claim5_retry_backoff.1 3 3 _ "payload"
      (fun i hi => if_pos hi) (if_neg (by omega)) (by omega)
  · exact claim5_retry_backoff.2.1 3 _ (fun i _ => rfl)
  · exact claim5_retry_backoff.2.2 3 0 _ 500
      (fun i hi => absurd hi (Nat.not_lt_zero i)) rfl (by omega)

/-! ## Claim C7: cache freshness -/

theorem cache_get_set (c : Cache) (k v : String) (t0 ttl now : Nat) :
    ((c.set k v t0 ttl).get k now).1
      = if c.enabled ∧ now < t0 + ttl then some v else none := by
  unfold Cache.set Cache.get
  rcases he : c.enabled with _ | _
  · simp [he]
  · simp only [he, Bool.not_true, Bool.false_eq_true, if_false]
    rw [List.find?_cons_of_pos _ (by simp)]
    by_cases ht : now < t0 + ttl
    · simp [ht]
    · simp [ht]

/-- C7 (modelled from the spec, `cache.ts` being absent): after
`set(k, v, ttl)` at time `t0`, a `get(k)` returns `v` while
`now < t0 + ttl` (cache enabled) and misses once that expiry has
passed; with `ttl = 0` every later `get` is a miss, and with the cache
disabled every `get` is a miss. -/
theorem claim7_cache_freshness (c : Cache) (k v : String) (t0 ttl now : Nat) :
    ((c.enabled = true → now < t0 + ttl →
        ((c.set k v t0 ttl).get k now).1 = some v) ∧
      (t0 + ttl ≤ now → ((c.set k v t0 ttl).get k now).1 = none) ∧
      (ttl = 0 → t0 ≤ now → ((c.set k v t0 ttl).get k now).1 = none) ∧
      (c.enabled = false → ((c.set k v t0 ttl).get k now).1 = none)) := by
  refine ⟨?_, ?_, ?_, ?_⟩
  · intro he ht
    rw [cache_get_set, if_pos ⟨he, ht⟩]
  · intro ht
    rw [cache_get_set, if_neg (by omega)]
  · intro h0 ht
    rw [cache_get_set, if_neg (by omega)]
  · intro he
    rw [cache_get_set, if_neg (by simp [he])]

/-- C7, witness: a fresh entry is returned before expiry, missed at
expiry, missed with a zero TTL, and missed when caching is disabled. -/
theorem claim7_witness :
    ((Cache.set { enabled := true, entries := [] } "dns:example.com" "records" 0 120).get
        "dns:example.com" 60).1 = some "records" ∧
      ((Cache.set { enabled := true, entries := [] } "dns:example.com" "records" 0 120).get
        "dns:example.com" 120).1 = none ∧
      ((Cache.set { enabled := true, entries := [] } "dns:example.com" "records" 5 0).get
        "dns:example.com" 5).1 = none ∧
      ((Cache.set { enabled := false, entries := [] } "dns:example.com" "records" 0 120).get
        "dns:example.com" 10).1 = none := by
  refine ⟨?_, ?_, ?_, ?_⟩
  · exact (claim7_cache_freshness _ _ _ _ _ _).1 rfl (by decide)
  · exact (claim7_cache_freshness _ _ _ _ _ _).2.1 (by decide)
  · exact (claim7_cache_freshness _ _ _ _ _ _).2.2.1 rfl (by decide)
  · exact (claim7_cache_freshness _ _ _ _ _ _).2.2.2 rfl

/-! ## Claim C8: malformed responses -/

/-- C8 (modelled from the spec, `spaceship-client.ts` being absent):
a 2xx response whose body fails to parse surfaces the dedicated
parse-failure error — an error kind distinct from an upstream HTTP
error and never confusable with a legitimate (possibly empty) payload,
which is returned as success. -/
theorem claim8_parse_failure (status : Nat) (h1 : 200 ≤ status) (h2 : status < 300) :
    (parseResponse status none = .error .parseFailure ∧
      (∀ body, parseResponse status (some body) = .ok body) ∧
      (∀ st, ResponseFailure.parseFailure ≠ ResponseFailure.httpError st) ∧
      (∀ payload, Except.error ResponseFailure.parseFailure
        ≠ (Except.ok payload : Except ResponseFailure String)) ∧
      (∀ st body, ¬(200 ≤ st ∧ st < 300) → parseResponse st body
        = .error (.httpError st))) := by
  refine ⟨?_, ?_, ?_, ?_, ?_⟩
  · unfold parseResponse
    rw [if_pos ⟨h1, h2⟩]
  · intro body
    unfold parseResponse
    rw [if_pos ⟨h1, h2⟩]
  · intro st h
    exact ResponseFailure.noConfusion h
  · intro payload h
    exact Except.noConfusion h
  · intro st body hno
    unfold parseResponse
    rw [if_neg hno]

/-- C8, witness: a malformed 200 body yields the parse-failure error
while an empty parsed body is a legitimate success. -/
theorem claim8_witness :
    parseResponse 200 none = .error .parseFailure ∧
      parseResponse 200 (some "") = .ok "" := by
  constructor
  · exact (claim8_parse_failure 200 (by decide) (by decide)).1
  · exact (claim8_parse_failure 200 (by decide) (by decide)).2.1 ""

/-! ## Claim C9: unhandled record types -/

/-- C9: `recordComparableValue` returns the empty string for every
record whose uppercased type is outside the handled set
`{A, AAAA, CNAME, MX, TXT, SRV}`; consequently any two records of the
same such type and the same normalized name have equal TTL-free
fingerprints regardless of their other fields, and `ALIAS` — which is
not handled — is nevertheless among the cutover planner's web-relevant
types. -/
theorem claim9_unhandled_types :
    ((∀ r : DnsRecord,
        jsToUpper r.type ∉ (["A", "AAAA", "CNAME", "MX", "TXT", "SRV"] : List String) →
        recordComparableValue r = "") ∧
      (∀ r1 r2 : DnsRecord,
        jsToUpper r1.type ∉ (["A", "AAAA", "CNAME", "MX", "TXT", "SRV"] : List String) →
        jsToUpper r1.type = jsToUpper r2.type →
        normalizeName r1.name = normalizeName r2.name →
        recordFingerprint r1 false = recordFingerprint r2 false) ∧
      ("ALIAS" ∈ webTypes ∧
        ("ALIAS" : String) ∉ (["A", "AAAA", "CNAME", "MX", "TXT", "SRV"] : List String))) := by
  have hval : ∀ r : DnsRecord,
      jsToUpper r.type ∉ (["A", "AAAA", "CNAME", "MX", "TXT", "SRV"] : List String) →
      recordComparableValue r = "" := by
    intro r h
    simp only [List.mem_cons, List.not_mem_nil, or_false, not_or] at h
    obtain ⟨h1, h2, h3, h4, h5, h6⟩ := h
    simp only [recordComparableValue]
    rw [if_neg h1, if_neg h2, if_neg h3, if_neg h4, if_neg h5, if_neg h6]
  refine ⟨hval, ?_, by decide, by decide⟩
  intro r1 r2 hmem htype hname
  unfold recordFingerprint
  rw [htype, hname, hval r1 hmem, hval r2 (htype ▸ hmem)]
  rfl

/-- C9, witness: two ALIAS records at the apex with entirely different
host fields are indistinguishable by TTL-free fingerprint. -/
theorem claim9_witness :
    recordFingerprint { type := "ALIAS", name := "@", cname := some "one.example" } false
      = recordFingerprint { type := "alias", name := "@", target := some "two.example" } false :=
  claim9_unhandled_types.2.1
    { type := "ALIAS", name := "@", cname := some "one.example" }
    { type := "alias", name := "@", target := some "two.example" }
    (by decide) (by decide) rfl
